import Mathlib

/-!
# Glasscord module controller

A shallow embedding of `src/main.js` (class `Main`) and `src/modules/_linux.js`
(class `Linux`).

* JavaScript objects used as dictionaries (`appConfig.modules`, `this.modules`)
  are insertion-ordered association lists of their own properties.
* Node's `path`, `fs` and `require`, `__dirname` and `Utils.getSavePath()` are
  fields of an environment `Env`; every result holds for all environments.
* A JavaScript call that can throw returns `Option`, `none` being the
  exception that leaves the method.
* Effects on collaborators (`new module()`, `save()`, `unload()`) are recorded
  in an event trace carried by the controller state.
-/

namespace Glasscord

/-! ## JavaScript dictionaries -/

/-- Property read `obj[k]`; `none` is `undefined`. -/
def getProp {α : Type} (k : String) : List (String × α) → Option α
  | [] => none
  | (k', v) :: rest => if k' = k then some v else getProp k rest

/-- Property write `obj[k] = v`: an existing key keeps its position, a new key is appended. -/
def setProp {α : Type} (k : String) (v : α) : List (String × α) → List (String × α)
  | [] => [(k, v)]
  | (k', v') :: rest => if k' = k then (k, v) :: rest else (k', v') :: setProp k v rest

/-- Property removal `delete obj[k]`. -/
def deleteProp {α : Type} (k : String) : List (String × α) → List (String × α)
  | [] => []
  | (k', v') :: rest => if k' = k then rest else (k', v') :: deleteProp k rest

/-! ## Environment and data model -/

/-- The fields of `path.parse(...)` that `_getModuleFilePath` reads. -/
structure ParsedPath where
  root : String
  dir : String
  base : String
  ext : String
deriving DecidableEq, Repr

/-- What `main.js` reads off a module class: `prototype.constructor.name`, the
statics `isCore` and `defaultOn`, the result of `isApplicable()` on the
running platform, and the `cssProps` field its instances carry
(`none` when the field is undefined). -/
structure ModuleClass where
  name : String
  isCore : Bool
  applicable : Bool
  defaultOn : Bool
  cssProps : Option (List String)
deriving DecidableEq, Repr

/-- A live module object. `id` is its object identity (what `===` compares);
`cls` is its `constructor`. -/
structure Instance where
  id : Nat
  cls : ModuleClass
deriving DecidableEq, Repr

/-- Calls made on collaborators. -/
inductive Event where
  | constructed (name : String) (id : Nat)
  | saved
  | unloaded (id : Nat)
deriving DecidableEq, Repr

/-- Node and host services used by the controller. `readdirSync` and
`require` return `none` when they throw. `resolve` is `path.resolve` on its
argument list. -/
structure Env where
  parse : String → ParsedPath
  resolve : List String → String
  existsSync : String → Bool
  readdirSync : String → Option (List String)
  require : String → Option ModuleClass
  dirname : String
  savePath : String

/-- The controller: `appConfig.modules`, `modules`, the allocation counter
giving each constructed instance a fresh identity, and the trace of
collaborator calls made so far. -/
structure Main where
  appConfig : List (String × Bool)
  modules : List (String × Instance)
  nextId : Nat
  trace : List Event
deriving DecidableEq, Repr

/-- Argument of `unloadModule`: an identifier or path string, or an instance. -/
inductive ModuleRef where
  | name (s : String)
  | inst (i : Instance)
deriving DecidableEq, Repr

/-! ## `Main` methods -/

/-- The test `ext === ".js" || ext === ".asar" || ext === ".module"`. -/
def isModuleExt (ext : String) : Bool :=
  ext == ".js" || ext == ".asar" || ext == ".module"

/-- `Main._getModuleFilePath` (main.js 100-115). Outer `none`: an exception of
`readdirSync`; `some none`: `undefined`. -/
def _getModuleFilePath (env : Env) (moduleFile : String) : Option (Option String) :=
  let parsedFile := env.parse moduleFile
  if isModuleExt parsedFile.ext then
    if parsedFile.root = "" ∧ parsedFile.dir = "" ∧ env.existsSync parsedFile.base = false then
      match env.readdirSync (env.resolve [env.dirname, "modules"]) with
      | none => none
      | some internal =>
        if parsedFile.base ∈ internal then
          some (some (env.resolve [env.dirname, "modules", parsedFile.base]))
        else
          match env.readdirSync (env.resolve [env.savePath, "_modules"]) with
          | none => none
          | some external =>
            if parsedFile.base ∈ external then
              some (some (env.resolve [env.savePath, "_modules", parsedFile.base]))
            else some none
    else some (some (env.resolve [moduleFile]))
  else some none

/-- `Main.getModule` (main.js 46-58). A failing `require` is caught and gives
`undefined`. -/
def getModule (env : Env) (self : Main) (name : String) : Option (Option Instance) :=
  match _getModuleFilePath env name with
  | none => none
  | some none => some (getProp name self.modules)
  | some (some parsedName) =>
    match env.require parsedName with
    | none => some none
    | some mdl => some (getProp mdl.name self.modules)

/-- Lines 68-72 of `loadModule`: the enabled-flag gate for a non-core module.
`none` is the early `return false`. -/
def configGate (mdl : ModuleClass) (self : Main) : Option Main :=
  if mdl.isCore = false then
    match getProp mdl.name self.appConfig with
    | none => some { self with appConfig := setProp mdl.name mdl.defaultOn self.appConfig }
    | some flag => if flag = false then none else some self
  else some self

/-- `Main.loadModule` (main.js 60-81). -/
def loadModule (env : Env) (self : Main) (moduleFile : String) : Option (Bool × Main) :=
  match _getModuleFilePath env moduleFile with
  | none => none
  | some none => some (false, self)
  | some (some parsedFile) =>
    if env.existsSync parsedFile = false then some (false, self)
    else
      match env.require parsedFile with
      | none => none
      | some mdl =>
        if mdl.applicable then
          match configGate mdl self with
          | none => some (false, self)
          | some self1 =>
            if (getProp mdl.name self1.modules).isSome then some (false, self1)
            else
              some (true,
                { self1 with
                  modules := setProp mdl.name ⟨self1.nextId, mdl⟩ self1.modules
                  nextId := self1.nextId + 1
                  trace := self1.trace ++ [Event.constructed mdl.name self1.nextId, Event.saved] })
        else some (false, self)

/-- The loop of `unloadModule` (main.js 87-93): the first key whose value is
identical to `m`. -/
def findKeyOf (m : Instance) : List (String × Instance) → Option String
  | [] => none
  | (k, i) :: rest => if i.id = m.id then some k else findKeyOf m rest

/-- `Main.unloadModule` (main.js 83-95). -/
def unloadModule (env : Env) (self : Main) (arg : ModuleRef) : Option (Bool × Main) :=
  let resolved : Option (Option Instance) :=
    match arg with
    | ModuleRef.name s => getModule env self s
    | ModuleRef.inst i => some (some i)
  match resolved with
  | none => none
  | some none => some (false, self)
  | some (some m) =>
    if m.cls.isCore then some (false, self)
    else
      match findKeyOf m self.modules with
      | some k =>
        some (true,
          { self with
            modules := deleteProp k self.modules
            trace := self.trace ++ [Event.unloaded m.id] })
      | none => some (false, self)

/-! ## Reading a CSS property (`Main._getCssProp`) -/

/-- The double-quote character U+0022. -/
def dquote : Char := Char.ofNat 34

/-- ECMAScript `WhiteSpace` and `LineTerminator` code points, the characters
`String.prototype.trim` removes. -/
def isJsWhiteSpace (c : Char) : Bool :=
  let n := c.toNat
  n == 9 || n == 10 || n == 11 || n == 12 || n == 13 || n == 32 || n == 160 ||
  n == 5760 || (8192 ≤ n && n ≤ 8202) || n == 8232 || n == 8233 || n == 8239 ||
  n == 8287 || n == 12288 || n == 65279

/-- `String.prototype.trim` on the character list. -/
def trim (s : List Char) : List Char :=
  ((s.dropWhile isJsWhiteSpace).reverse.dropWhile isJsWhiteSpace).reverse

/-- The call `.replace("\"", "")`: a string pattern, so only its first
occurrence is replaced. -/
def replaceQuote : List Char → List Char
  | [] => []
  | c :: cs => if c = dquote then cs else c :: replaceQuote cs

/-- The function run in the renderer (main.js 220-224) applied to the value
`getPropertyValue` returned; `none` is `undefined`. -/
def rendererGetCssProp (flag : String) : Option String :=
  if flag = "" then none else some (String.mk (replaceQuote (trim flag.toList)))

/-- `Main._getCssProp` (main.js 217-231) as a function of the raw computed
style value, for a round-trip that fulfils; `none` is `null`. -/
def _getCssProp (raw : String) : Option String :=
  match rendererGetCssProp raw with
  | some res => if res = "" then none else some res
  | none => none

/-! ## The refresh cycle (`Main._updateVariables`) -/

/-- How a promise settles. -/
inductive Settled (α : Type) where
  | fulfilled (a : α)
  | rejected
deriving DecidableEq, Repr

/-- The host during one refresh of a window: for a module name and property,
how `executeJavaScript` settles (with the raw computed style value), and
whether that module's `update(win, prop, value)` fulfils. -/
structure Host where
  read : String → String → Settled String
  updateOk : String → String → Option String → Bool

/-- One promise pushed at main.js 165: the property it is for, the value
`update` was dispatched with (`none`: `update` was not called), and whether
the chained promise fulfilled. -/
structure RoundTrip where
  moduleName : String
  prop : String
  dispatched : Option (Option String)
  ok : Bool
deriving DecidableEq, Repr

/-- The chain `_getCssProp(...).then(async value => await update(win, prop, value))`. -/
def roundTrip (host : Host) (moduleName prop : String) : RoundTrip :=
  match host.read moduleName prop with
  | Settled.rejected => ⟨moduleName, prop, none, false⟩
  | Settled.fulfilled raw =>
    let value := _getCssProp raw
    ⟨moduleName, prop, some value, host.updateOk moduleName prop value⟩

/-- The pairs (module name, property) visited by the two loops of
`_updateVariables` (main.js 162-168). -/
def observed : List (String × Instance) → List (String × String)
  | [] => []
  | (moduleName, i) :: rest =>
    (match i.cls.cssProps with
      | some props => if props.length ≠ 0 then props.map (fun prop => (moduleName, prop)) else []
      | none => []) ++ observed rest

/-- `Promise.all(promises)`: fulfils when every promise fulfils, rejects as
soon as one rejects. -/
def promiseAll (promises : List RoundTrip) : Bool :=
  promises.all (fun p => p.ok)

/-- The outcome of a refresh: the promises pushed, and whether the callback of
`Promise.all(promises).then(...)`, which logs "Updated!", ran. -/
structure Refresh where
  promises : List RoundTrip
  loggedUpdated : Bool
deriving DecidableEq, Repr

/-- `Main._updateVariables` (main.js 159-173). -/
def _updateVariables (self : Main) (host : Host) : Refresh :=
  let promises := (observed self.modules).map (fun p => roundTrip host p.1 p.2)
  ⟨promises, promiseAll promises⟩

/-! ## The Linux module (`_linux.js`) -/

/-- A JavaScript Number that `parseInt` can return: `NaN`, a signed
infinity, or a double whose value is an integer, kept as sign and magnitude
(so `finite true 0` is `-0`). -/
inductive JsNum where
  | nan
  | finite (negative : Bool) (magnitude : Nat)
  | infinity (negative : Bool)
deriving DecidableEq, Repr

/-- Number of binary digits of `n`, by halving; `fuel` bounds the recursion. -/
def bitLengthAux : Nat → Nat → Nat
  | 0, _ => 0
  | fuel + 1, n => if n = 0 then 0 else bitLengthAux fuel (n / 2) + 1

/-- Number of binary digits of `n` (0 for 0). -/
def bitLength (n : Nat) : Nat := bitLengthAux n n

/-- The Number value of a non-negative integer: the nearest double, ties to
the even significand (53 binary digits); `none` when the rounded value reaches
2^1024, that is, needs more than 1024 binary digits, which is `Infinity`. -/
def roundToDouble (n : Nat) : Option Nat :=
  if bitLength n ≤ 53 then some n
  else
    let e := bitLength n - 53
    let q := n / 2 ^ e
    let r := n % 2 ^ e
    let half := 2 ^ (e - 1)
    let q1 := if half < r ∨ (r = half ∧ q % 2 = 1) then q + 1 else q
    if 1024 < bitLength (q1 * 2 ^ e) then none else some (q1 * 2 ^ e)

/-- Value of a character as a digit in radix up to 36. -/
def digitValue (c : Char) : Option Nat :=
  let n := c.toNat
  if 48 ≤ n ∧ n ≤ 57 then some (n - 48)
  else if 97 ≤ n ∧ n ≤ 122 then some (n - 87)
  else if 65 ≤ n ∧ n ≤ 90 then some (n - 55)
  else none

/-- Whether `c` is a digit of radix `r`. -/
def isRadixDigit (r : Nat) (c : Char) : Bool :=
  match digitValue c with
  | some d => decide (d < r)
  | none => false

/-- The number written by a list of radix-`r` digits. -/
def digitsValue (r : Nat) (ds : List Char) : Nat :=
  ds.foldl (fun acc c => acc * r + (digitValue c).getD 0) 0

/-- ECMAScript `parseInt(value)` with no radix argument, on a string or `null`
(`none`): `ToString`, strip leading white space, sign, `0x` or `0X` marker,
longest run of digits; no digit gives `NaN`, otherwise the signed Number value
of the integer the digits write (correctly rounded, as V8 computes it). -/
def parseInt (value : Option String) : JsNum :=
  let inputString : String := match value with
    | none => "null"
    | some s => s
  let s0 := inputString.toList.dropWhile isJsWhiteSpace
  let signed : Bool × List Char := match s0 with
    | '-' :: r => (true, r)
    | '+' :: r => (false, r)
    | _ => (false, s0)
  let radixed : Nat × List Char := match signed.2 with
    | '0' :: 'x' :: r => (16, r)
    | '0' :: 'X' :: r => (16, r)
    | _ => (10, signed.2)
  let z := radixed.2.takeWhile (isRadixDigit radixed.1)
  if z = [] then JsNum.nan
  else
    match roundToDouble (digitsValue radixed.1 z) with
    | some v => JsNum.finite signed.1 v
    | none => JsNum.infinity signed.1

/-- `String.prototype.toLowerCase` restricted to the ASCII letters. No code
point outside A-Z has a lower-case mapping that is an ASCII letter of the
word "true", so comparing the result with "true" agrees with JavaScript. -/
def toLowerCase (s : String) : String :=
  String.mk (s.toList.map Char.toLower)

/-- The part of the Glasstron window the Linux module touches: the arguments
`setBlur` was called with, in order, and the two tuning fields (`none` when
the field is `undefined` on this build). -/
structure BrowserWindow where
  setBlurCalls : List Bool
  blurGnomeSigma : Option JsNum
  blurCornerRadius : Option JsNum
deriving DecidableEq, Repr

/-- `Linux.update` (_linux.js 27-42); `value` is a string or `null` (`none`). -/
def Linux.update (win : BrowserWindow) (cssProp : String) (value : Option String) :
    BrowserWindow :=
  if cssProp = "--glasscord-linux-blur" then
    let value1 : Bool := match value with
      | some s => decide (toLowerCase s = "true")
      | none => false
    { win with setBlurCalls := win.setBlurCalls ++ [value1] }
  else if cssProp = "--glasscord-gnome-sigma" then
    match win.blurGnomeSigma with
    | none => win
    | some _ => { win with blurGnomeSigma := some (parseInt value) }
  else if cssProp = "--glasscord-blur-corner-radius" then
    match win.blurCornerRadius with
    | none => win
    | some _ => { win with blurCornerRadius := some (parseInt value) }
  else win

/-- The statics and the `cssProps` field of class `Linux` (_linux.js 21-24).
`isApplicable` and `defaultOn` come from the base class in `module.js` and are
parameters. -/
def Linux.cls (applicable defaultOn : Bool) : ModuleClass :=
  { name := "Linux"
    isCore := true
    applicable := applicable
    defaultOn := defaultOn
    cssProps := some ["--glasscord-linux-blur", "--glasscord-gnome-sigma",
      "--glasscord-blur-corner-radius"] }

/-! ## Registry invariant -/

/-- The registry states the controller produces: keys are pairwise distinct
(a JavaScript object holds one property per key) and so are the identities of
the instances (each comes from its own `new module()`). -/
def RegistryWF (ms : List (String × Instance)) : Prop :=
  (ms.map (fun e => e.1)).Nodup ∧ (ms.map (fun e => e.2.id)).Nodup

instance (ms : List (String × Instance)) : Decidable (RegistryWF ms) := by
  unfold RegistryWF
  infer_instance

/-- Controller invariant: the registry is well formed and every live instance
was allocated before the current allocation counter. -/
def MainWF (self : Main) : Prop :=
  RegistryWF self.modules ∧ ∀ e ∈ self.modules, e.2.id < self.nextId

instance (self : Main) : Decidable (MainWF self) := by
  unfold MainWF
  infer_instance

/-! ## Concrete scenarios -/

/-- A non-core module class that is off by default. -/
def quietCls : ModuleClass :=
  { name := "Quiet", isCore := false, applicable := true, defaultOn := false, cssProps := none }

/-- A non-core module class of an external file whose class is also called `Linux`. -/
def clashCls : ModuleClass :=
  { name := "Linux", isCore := false, applicable := true, defaultOn := true, cssProps := none }

/-- An installation: `_linux.js` and `quiet.js` bundled in `/app/modules`,
`clash.js` in the user directory `/home/_modules`, and a file `quiet.js` in
the working directory `/cwd`. -/
def demoEnv : Env :=
  { parse := fun s =>
      if s = "quiet.js" then ⟨"", "", "quiet.js", ".js"⟩
      else if s = "ghost.js" then ⟨"", "", "ghost.js", ".js"⟩
      else if s = "clash.js" then ⟨"", "", "clash.js", ".js"⟩
      else if s = "notes.txt" then ⟨"", "", "notes.txt", ".txt"⟩
      else if s = "/app/modules/_linux.js" then ⟨"/", "/app/modules", "_linux.js", ".js"⟩
      else if s = "/app/modules/quiet.js" then ⟨"/", "/app/modules", "quiet.js", ".js"⟩
      else if s = "/home/_modules/clash.js" then ⟨"/", "/home/_modules", "clash.js", ".js"⟩
      else ⟨"", "", s, ""⟩
    resolve := fun parts =>
      match parts with
      | [a] => if a = "quiet.js" then "/cwd/quiet.js" else if a = "ghost.js" then "/cwd/ghost.js" else a
      | [a, b] => a ++ "/" ++ b
      | [a, b, c] => a ++ "/" ++ b ++ "/" ++ c
      | _ => ""
    existsSync := fun f =>
      f = "quiet.js" || f = "/cwd/quiet.js" || f = "/app/modules/_linux.js" ||
      f = "/app/modules/quiet.js" || f = "/home/_modules/clash.js"
    readdirSync := fun d =>
      if d = "/app/modules" then some ["_linux.js", "quiet.js"]
      else if d = "/home/_modules" then some ["clash.js"]
      else none
    require := fun f =>
      if f = "/app/modules/_linux.js" then some (Linux.cls true true)
      else if f = "/app/modules/quiet.js" then some quietCls
      else if f = "/home/_modules/clash.js" then some clashCls
      else none
    dirname := "/app"
    savePath := "/home" }

/-- The controller before any module is loaded. -/
def emptyMain : Main := ⟨[], [], 0, []⟩

/-- The controller after the bundled `_linux.js` alone was loaded. -/
def linuxLoaded : Main :=
  ⟨[], [("Linux", ⟨0, Linux.cls true true⟩)], 1, [Event.constructed "Linux" 0, Event.saved]⟩

/-- The controller after `quiet.js` alone was loaded. -/
def quietLoaded : Main :=
  ⟨[("Quiet", false)], [("Quiet", ⟨0, quietCls⟩)], 1, [Event.constructed "Quiet" 0, Event.saved]⟩

/-- A controller whose config has `Quiet` switched off and no live module. -/
def quietDisabled : Main := ⟨[("Quiet", false)], [], 0, []⟩

/-- A refresh in which the read of `--glasscord-gnome-sigma` rejects and every
other round-trip fulfils. -/
def oneRejects : Host :=
  { read := fun _ prop =>
      if prop = "--glasscord-gnome-sigma" then Settled.rejected
      else if prop = "--glasscord-linux-blur" then Settled.fulfilled "true"
      else Settled.fulfilled "8"
    updateOk := fun _ _ _ => true }

/-- A window whose driver exposes both tuning fields. -/
def tunedWin : BrowserWindow :=
  ⟨[], some (JsNum.finite false 5), some (JsNum.finite false 3)⟩

/-- A decimal value of 401 digits: 1 followed by 400 zeros. -/
def hugeDigits : String := String.mk ('1' :: List.replicate 400 '0')

/-- The computed style value `"true"` written with its two quote characters. -/
def quotedTrue : String := String.mk [dquote, 't', 'r', 'u', 'e', dquote]

/-! ## Dictionary lemmas -/

theorem getProp_setProp_self {α : Type} (k : String) (v : α) (l : List (String × α)) :
    getProp k (setProp k v l) = some v := by
  induction l with
  | nil => simp [setProp, getProp]
  | cons e rest ih =>
    obtain ⟨k', v'⟩ := e
    by_cases h : k' = k
    · simp [setProp, getProp, h]
    · simp [setProp, getProp, h, ih]

theorem getProp_setProp_ne {α : Type} (k j : String) (v : α) (l : List (String × α))
    (hj : j ≠ k) : getProp j (setProp k v l) = getProp j l := by
  induction l with
  | nil => simp [setProp, getProp, Ne.symm hj]
  | cons e rest ih =>
    obtain ⟨k', v'⟩ := e
    by_cases h : k' = k
    · subst h
      simp [setProp, getProp, Ne.symm hj]
    · by_cases h2 : k' = j
      · subst h2
        simp [setProp, getProp, h]
      · simp [setProp, getProp, h, h2, ih]

theorem getProp_deleteProp_ne {α : Type} (k j : String) (l : List (String × α))
    (hj : j ≠ k) : getProp j (deleteProp k l) = getProp j l := by
  induction l with
  | nil => simp [deleteProp]
  | cons e rest ih =>
    obtain ⟨k', v'⟩ := e
    by_cases h : k' = k
    · subst h
      simp [deleteProp, getProp, Ne.symm hj]
    · by_cases h2 : k' = j
      · subst h2
        simp [deleteProp, getProp, h]
      · simp [deleteProp, getProp, h, h2, ih]

theorem getProp_eq_none_of_not_mem {α : Type} (k : String) (l : List (String × α))
    (h : k ∉ l.map (fun e => e.1)) : getProp k l = none := by
  induction l with
  | nil => simp [getProp]
  | cons e rest ih =>
    obtain ⟨k', v'⟩ := e
    simp only [List.map_cons, List.mem_cons, not_or] at h
    simp [getProp, Ne.symm h.1, ih h.2]

theorem getProp_deleteProp_self {α : Type} (k : String) (l : List (String × α))
    (hl : (l.map (fun e => e.1)).Nodup) : getProp k (deleteProp k l) = none := by
  induction l with
  | nil => simp [deleteProp, getProp]
  | cons e rest ih =>
    obtain ⟨k', v'⟩ := e
    simp only [List.map_cons, List.nodup_cons] at hl
    by_cases h : k' = k
    · subst h
      simpa [deleteProp] using getProp_eq_none_of_not_mem k' rest hl.1
    · simp [deleteProp, getProp, h, ih hl.2]

theorem id_mem_of_getProp (k : String) (m : Instance) (l : List (String × Instance))
    (h : getProp k l = some m) : m.id ∈ l.map (fun e => e.2.id) := by
  induction l with
  | nil => simp [getProp] at h
  | cons e rest ih =>
    obtain ⟨k', i⟩ := e
    by_cases hk : k' = k
    · simp [getProp, hk] at h
      simp [h]
    · simp [getProp, hk] at h
      simp [ih h]

theorem findKeyOf_eq_none (m : Instance) (l : List (String × Instance))
    (h : m.id ∉ l.map (fun e => e.2.id)) : findKeyOf m l = none := by
  induction l with
  | nil => simp [findKeyOf]
  | cons e rest ih =>
    obtain ⟨k', i⟩ := e
    simp only [List.map_cons, List.mem_cons, not_or] at h
    simp [findKeyOf, Ne.symm h.1, ih h.2]

theorem findKeyOf_of_getProp (k : String) (m : Instance) (l : List (String × Instance))
    (hl : (l.map (fun e => e.2.id)).Nodup) (h : getProp k l = some m) :
    findKeyOf m l = some k := by
  induction l with
  | nil => simp [getProp] at h
  | cons e rest ih =>
    obtain ⟨k', i⟩ := e
    simp only [List.map_cons, List.nodup_cons] at hl
    by_cases hk : k' = k
    · simp [getProp, hk] at h
      simp [findKeyOf, h, hk]
    · simp [getProp, hk] at h
      have hne : i.id ≠ m.id := by
        intro hid
        exact hl.1 (hid ▸ id_mem_of_getProp k m rest h)
      simp [findKeyOf, hne, ih hl.2 h]

theorem findKeyOf_deleteProp (k : String) (m : Instance) (l : List (String × Instance))
    (hl : (l.map (fun e => e.2.id)).Nodup) (h : getProp k l = some m) :
    findKeyOf m (deleteProp k l) = none := by
  induction l with
  | nil => simp [getProp] at h
  | cons e rest ih =>
    obtain ⟨k', i⟩ := e
    simp only [List.map_cons, List.nodup_cons] at hl
    by_cases hk : k' = k
    · simp [getProp, hk] at h
      subst h
      simpa [deleteProp, hk] using findKeyOf_eq_none i rest hl.1
    · simp [getProp, hk] at h
      have hne : i.id ≠ m.id := by
        intro hid
        exact hl.1 (hid ▸ id_mem_of_getProp k m rest h)
      simp [deleteProp, hk, findKeyOf, hne, ih hl.2 h]

theorem setProp_of_getProp_none {α : Type} (k : String) (v : α) (l : List (String × α))
    (h : getProp k l = none) : setProp k v l = l ++ [(k, v)] := by
  induction l with
  | nil => simp [setProp]
  | cons e rest ih =>
    obtain ⟨k', v'⟩ := e
    by_cases hk : k' = k
    · simp [getProp, hk] at h
    · simp [getProp, hk] at h
      simp [setProp, hk, ih h]

theorem not_mem_keys_of_getProp_none {α : Type} (k : String) (l : List (String × α))
    (h : getProp k l = none) : k ∉ l.map (fun e => e.1) := by
  induction l with
  | nil => simp
  | cons e rest ih =>
    obtain ⟨k', v'⟩ := e
    by_cases hk : k' = k
    · simp [getProp, hk] at h
    · simp [getProp, hk] at h
      simp [Ne.symm hk, ih h]

theorem deleteProp_sublist {α : Type} (k : String) (l : List (String × α)) :
    (deleteProp k l).Sublist l := by
  induction l with
  | nil => simp [deleteProp]
  | cons e rest ih =>
    obtain ⟨k', v'⟩ := e
    by_cases hk : k' = k
    · simp [deleteProp, hk]
    · simpa [deleteProp, hk] using ih

/-! ## The invariant holds in every state the controller reaches -/

theorem MainWF_emptyMain : MainWF emptyMain := by
  simp [MainWF, RegistryWF, emptyMain]

theorem configGate_frame (mdl : ModuleClass) (self self1 : Main)
    (h : configGate mdl self = some self1) :
    self1.modules = self.modules ∧ self1.nextId = self.nextId ∧ self1.trace = self.trace := by
  unfold configGate at h
  split at h
  · split at h
    · cases h
      exact ⟨rfl, rfl, rfl⟩
    · split at h
      · cases h
      · cases h
        exact ⟨rfl, rfl, rfl⟩
  · cases h
    exact ⟨rfl, rfl, rfl⟩

theorem loadModule_preserves_MainWF (env : Env) (self self1 : Main) (file : String) (b : Bool)
    (hwf : MainWF self) (h : loadModule env self file = some (b, self1)) : MainWF self1 := by
  unfold loadModule at h
  split at h
  · cases h
  · cases h
    exact hwf
  · split at h
    · cases h
      exact hwf
    · split at h
      · cases h
      · rename_i mdl _
        split at h
        · split at h
          · cases h
            exact hwf
          · rename_i self2 hgate
            obtain ⟨hm, hn, _⟩ := configGate_frame mdl self self2 hgate
            split at h
            · cases h
              simpa [MainWF, hm, hn] using hwf
            · rename_i hnone
              cases h
              have hnone1 : getProp mdl.name self.modules = none := by
                simpa [hm] using hnone
              obtain ⟨⟨hk, hi⟩, hlt⟩ := hwf
              have hfresh : self.nextId ∉ self.modules.map (fun e => e.2.id) := by
                intro hmem
                obtain ⟨e, he, heq⟩ := List.mem_map.mp hmem
                have := hlt e he
                omega
              refine ⟨⟨?_, ?_⟩, ?_⟩
              · simp only [hm, setProp_of_getProp_none _ _ _ hnone1, List.map_append,
                  List.map_cons, List.map_nil]
                exact List.Nodup.append hk (List.nodup_singleton _)
                  (by simpa using not_mem_keys_of_getProp_none _ _ hnone1)
              · simp only [hm, hn, setProp_of_getProp_none _ _ _ hnone1, List.map_append,
                  List.map_cons, List.map_nil]
                exact List.Nodup.append hi (List.nodup_singleton _) (by simpa using hfresh)
              · intro e he
                simp only [hm, hn, setProp_of_getProp_none _ _ _ hnone1, List.mem_append,
                  List.mem_singleton] at he
                rcases he with he | he
                · have := hlt e he
                  simp only [hn]
                  omega
                · subst he
                  simp only [hn]
                  omega
        · cases h
          exact hwf

theorem unloadModule_preserves_MainWF (env : Env) (self self1 : Main) (arg : ModuleRef)
    (b : Bool) (hwf : MainWF self) (h : unloadModule env self arg = some (b, self1)) :
    MainWF self1 := by
  unfold unloadModule at h
  simp only at h
  split at h
  · cases h
  · cases h
    exact hwf
  · split at h
    · cases h
      exact hwf
    · split at h
      · rename_i k _
        cases h
        obtain ⟨⟨hk, hi⟩, hlt⟩ := hwf
        have hsub := deleteProp_sublist k self.modules
        refine ⟨⟨?_, ?_⟩, ?_⟩
        · exact List.Nodup.sublist (List.Sublist.map _ hsub) hk
        · exact List.Nodup.sublist (List.Sublist.map _ hsub) hi
        · intro e he
          exact hlt e (hsub.subset he)
      · cases h
        exact hwf

/-! ## `loadModule` -/

/-- What `loadModule` does for an applicable non-core module with no config
flag and no live instance: the flag is set to `defaultOn`, and whatever
`defaultOn` is, the module is constructed, registered and the config saved. -/
theorem loadModule_absent_flag (env : Env) (self : Main) (file p : String) (mdl : ModuleClass)
    (hpath : _getModuleFilePath env file = some (some p)) (hexists : env.existsSync p = true)
    (hreq : env.require p = some mdl) (happ : mdl.applicable = true)
    (hcore : mdl.isCore = false) (hflag : getProp mdl.name self.appConfig = none)
    (hreg : getProp mdl.name self.modules = none) :
    loadModule env self file = some (true,
      { appConfig := setProp mdl.name mdl.defaultOn self.appConfig
        modules := setProp mdl.name ⟨self.nextId, mdl⟩ self.modules
        nextId := self.nextId + 1
        trace := self.trace ++ [Event.constructed mdl.name self.nextId, Event.saved] }) := by
  simp [loadModule, hpath, hexists, hreq, happ, configGate, hcore, hflag, hreg]

/-- C1, evaluated on the code: `quiet.js` is applicable, non-core, off by
default (`defaultOn = false`), has no config flag and no live instance. The
claim says it must not become live. `loadModule` stores the flag `false`, saves
once, and nevertheless constructs and registers the module and returns true. -/
theorem C1_default_off_module_goes_live :
    quietCls.applicable = true ∧ quietCls.isCore = false ∧ quietCls.defaultOn = false ∧
    demoEnv.existsSync "/app/modules/quiet.js" = true ∧
    demoEnv.require "/app/modules/quiet.js" = some quietCls ∧
    getProp quietCls.name emptyMain.appConfig = none ∧
    getProp quietCls.name emptyMain.modules = none ∧
    loadModule demoEnv emptyMain "/app/modules/quiet.js" = some (true, quietLoaded) ∧
    getProp quietCls.name quietLoaded.appConfig = some false ∧
    getProp quietCls.name quietLoaded.modules = some ⟨0, quietCls⟩ ∧
    quietLoaded.trace = emptyMain.trace ++ [Event.constructed "Quiet" 0, Event.saved] := by
  decide

/-- C2 as stated fails: after the bundled core module `Linux` is loaded, the
external file `clash.js`, whose applicable non-core class is also named
`Linux`, is rejected as a duplicate, yet the config document gains the flag
`Linux = true`. -/
theorem C2_counterexample :
    loadModule demoEnv emptyMain "/app/modules/_linux.js" = some (true, linuxLoaded) ∧
    demoEnv.require "/home/_modules/clash.js" = some clashCls ∧
    clashCls.applicable = true ∧
    (getProp clashCls.name linuxLoaded.modules).isSome = true ∧
    loadModule demoEnv linuxLoaded "/home/_modules/clash.js" =
      some (false, { linuxLoaded with appConfig := [("Linux", true)] }) ∧
    linuxLoaded.appConfig = [] := by
  decide

/-- C2 (amended): loading an applicable module whose identifier is already a
key of the registry returns false, leaves the registry (hence the instance
under that identifier), the allocation counter and the trace unchanged (no
construction, no save). The config document is unchanged too, except when the
module is non-core and has no flag: then the flag is set to `defaultOn`. -/
theorem C2_duplicate_load_rejected (env : Env) (self : Main) (file p : String)
    (mdl : ModuleClass)
    (hpath : _getModuleFilePath env file = some (some p)) (hexists : env.existsSync p = true)
    (hreq : env.require p = some mdl) (happ : mdl.applicable = true)
    (hlive : (getProp mdl.name self.modules).isSome = true) :
    loadModule env self file = some (false,
      { appConfig :=
          if mdl.isCore = false ∧ getProp mdl.name self.appConfig = none then
            setProp mdl.name mdl.defaultOn self.appConfig
          else self.appConfig
        modules := self.modules
        nextId := self.nextId
        trace := self.trace }) := by
  cases hc : mdl.isCore
  · cases hf : getProp mdl.name self.appConfig with
    | none => simp [loadModule, hpath, hexists, hreq, happ, configGate, hc, hf, hlive]
    | some flag =>
      cases flag <;> simp [loadModule, hpath, hexists, hreq, happ, configGate, hc, hf, hlive]
  · simp [loadModule, hpath, hexists, hreq, happ, configGate, hc, hlive]

/-- C2 (amended) at the rejected duplicate `clash.js`. -/
theorem C2_duplicate_load_rejected_witness :
    loadModule demoEnv linuxLoaded "/home/_modules/clash.js" = some (false,
      { appConfig :=
          if clashCls.isCore = false ∧ getProp clashCls.name linuxLoaded.appConfig = none then
            setProp clashCls.name clashCls.defaultOn linuxLoaded.appConfig
          else linuxLoaded.appConfig
        modules := linuxLoaded.modules
        nextId := linuxLoaded.nextId
        trace := linuxLoaded.trace }) :=
  C2_duplicate_load_rejected demoEnv linuxLoaded "/home/_modules/clash.js"
    "/home/_modules/clash.js" clashCls (by decide) (by decide) (by decide) (by decide)
    (by decide)

/-- C3: loading an applicable non-core module whose config flag is present and
false returns false and leaves the whole controller state as it was: same
registry, same config, no instance constructed, nothing saved. -/
theorem C3_disabled_module_not_loaded (env : Env) (self : Main) (file p : String)
    (mdl : ModuleClass)
    (hpath : _getModuleFilePath env file = some (some p)) (hexists : env.existsSync p = true)
    (hreq : env.require p = some mdl) (happ : mdl.applicable = true)
    (hcore : mdl.isCore = false) (hflag : getProp mdl.name self.appConfig = some false) :
    loadModule env self file = some (false, self) := by
  simp [loadModule, hpath, hexists, hreq, happ, configGate, hcore, hflag]

/-- C3 at a controller whose config has `Quiet` switched off. -/
theorem C3_disabled_module_not_loaded_witness :
    loadModule demoEnv quietDisabled "/app/modules/quiet.js" = some (false, quietDisabled) :=
  C3_disabled_module_not_loaded demoEnv quietDisabled "/app/modules/quiet.js"
    "/app/modules/quiet.js" quietCls (by decide) (by decide) (by decide) (by decide)
    (by decide) (by decide)

/-! ## `unloadModule` -/

/-- With an identifier that is not of module-file form, `getModule` is the
registry lookup. -/
theorem getModule_identifier (env : Env) (self : Main) (name : String)
    (hext : isModuleExt (env.parse name).ext = false) :
    getModule env self name = some (getProp name self.modules) := by
  simp [getModule, _getModuleFilePath, hext]

/-- Both argument forms reach the instance stored under `name`. -/
theorem unloadModule_resolved (env : Env) (self : Main) (name : String) (m : Instance)
    (arg : ModuleRef) (hlive : getProp name self.modules = some m)
    (harg : arg = ModuleRef.inst m ∨
      (arg = ModuleRef.name name ∧ isModuleExt (env.parse name).ext = false)) :
    unloadModule env self arg =
      if m.cls.isCore then some (false, self)
      else
        match findKeyOf m self.modules with
        | some k =>
          some (true,
            { self with
              modules := deleteProp k self.modules
              trace := self.trace ++ [Event.unloaded m.id] })
        | none => some (false, self) := by
  rcases harg with rfl | ⟨rfl, hext⟩
  · simp [unloadModule]
  · simp [unloadModule, getModule_identifier env self name hext, hlive]

/-- Once the instance is gone from the registry, both argument forms fail. -/
theorem unloadModule_absent (env : Env) (self : Main) (name : String) (m : Instance)
    (arg : ModuleRef) (hgone : getProp name self.modules = none)
    (hid : findKeyOf m self.modules = none)
    (harg : arg = ModuleRef.inst m ∨
      (arg = ModuleRef.name name ∧ isModuleExt (env.parse name).ext = false)) :
    unloadModule env self arg = some (false, self) := by
  rcases harg with rfl | ⟨rfl, hext⟩
  · cases hc : m.cls.isCore <;> simp [unloadModule, hc, hid]
  · simp [unloadModule, getModule_identifier env self name hext, hgone]

/-- C4: in a well-formed registry holding the non-core instance `m` under
`name`, `unloadModule`, given `m` or the identifier `name` (an identifier is a
class name, to which `path.parse` gives none of the module extensions),
returns true, calls
`m.unload()` exactly once (the trace grows by that one event), deletes the
entry `name` and leaves every other entry and the config as they were; a
second call, again in either form, returns false and changes nothing, so no
unload hook runs. -/
theorem C4_unload_live_noncore (env : Env) (self : Main) (name : String) (m : Instance)
    (arg1 arg2 : ModuleRef)
    (hwf : RegistryWF self.modules) (hlive : getProp name self.modules = some m)
    (hcore : m.cls.isCore = false)
    (harg1 : arg1 = ModuleRef.inst m ∨
      (arg1 = ModuleRef.name name ∧ isModuleExt (env.parse name).ext = false))
    (harg2 : arg2 = ModuleRef.inst m ∨
      (arg2 = ModuleRef.name name ∧ isModuleExt (env.parse name).ext = false)) :
    ∃ self1 : Main,
      unloadModule env self arg1 = some (true, self1) ∧
      self1.trace = self.trace ++ [Event.unloaded m.id] ∧
      self1.appConfig = self.appConfig ∧
      self1.modules = deleteProp name self.modules ∧
      getProp name self1.modules = none ∧
      (∀ k, k ≠ name → getProp k self1.modules = getProp k self.modules) ∧
      unloadModule env self1 arg2 = some (false, self1) := by
  refine ⟨{ self with
            modules := deleteProp name self.modules
            trace := self.trace ++ [Event.unloaded m.id] }, ?_, rfl, rfl, rfl, ?_, ?_, ?_⟩
  · rw [unloadModule_resolved env self name m arg1 hlive harg1]
    simp [hcore, findKeyOf_of_getProp name m self.modules hwf.2 hlive]
  · exact getProp_deleteProp_self name self.modules hwf.1
  · intro k hk
    exact getProp_deleteProp_ne name k self.modules hk
  · exact unloadModule_absent env _ name m arg2
      (getProp_deleteProp_self name self.modules hwf.1)
      (findKeyOf_deleteProp name m self.modules hwf.2 hlive) harg2

/-- C4 at the controller that holds the non-core module `Quiet` alone: unload
by instance, then a second attempt by identifier. -/
theorem C4_unload_live_noncore_witness :
    ∃ self1 : Main,
      unloadModule demoEnv quietLoaded (ModuleRef.inst ⟨0, quietCls⟩) = some (true, self1) ∧
      self1.trace = quietLoaded.trace ++ [Event.unloaded 0] ∧
      self1.appConfig = quietLoaded.appConfig ∧
      self1.modules = deleteProp "Quiet" quietLoaded.modules ∧
      getProp "Quiet" self1.modules = none ∧
      (∀ k, k ≠ "Quiet" → getProp k self1.modules = getProp k quietLoaded.modules) ∧
      unloadModule demoEnv self1 (ModuleRef.name "Quiet") = some (false, self1) :=
  C4_unload_live_noncore demoEnv quietLoaded "Quiet" ⟨0, quietCls⟩
    (ModuleRef.inst ⟨0, quietCls⟩) (ModuleRef.name "Quiet")
    (by decide) (by decide) (by decide) (Or.inl rfl) (Or.inr ⟨rfl, by decide⟩)

/-- C5: for an instance `m` of a core class, `unloadModule` given `m` returns
false with the controller state (registry, trace) unchanged, and so does
`unloadModule` given the identifier of `m` (a class name, to which
`path.parse` gives none of the module extensions) when `m` is the instance
live under it. -/
theorem C5_core_never_unloaded (env : Env) (self : Main) (m : Instance)
    (hcore : m.cls.isCore = true) :
    unloadModule env self (ModuleRef.inst m) = some (false, self) ∧
    (isModuleExt (env.parse m.cls.name).ext = false →
      getProp m.cls.name self.modules = some m →
      unloadModule env self (ModuleRef.name m.cls.name) = some (false, self)) := by
  constructor
  · simp [unloadModule, hcore]
  · intro hext hlive
    simp [unloadModule, getModule_identifier env self m.cls.name hext, hlive, hcore]

/-- C5 at the controller that holds the core module `Linux`. -/
theorem C5_core_never_unloaded_witness :
    unloadModule demoEnv linuxLoaded (ModuleRef.inst ⟨0, Linux.cls true true⟩) =
      some (false, linuxLoaded) ∧
    unloadModule demoEnv linuxLoaded (ModuleRef.name "Linux") = some (false, linuxLoaded) :=
  ⟨(C5_core_never_unloaded demoEnv linuxLoaded ⟨0, Linux.cls true true⟩ (by decide)).1,
   (C5_core_never_unloaded demoEnv linuxLoaded ⟨0, Linux.cls true true⟩ (by decide)).2
     (by decide) (by decide)⟩

/-! ## `_getModuleFilePath` -/

/-- C9 as stated fails: `quiet.js` is present in the working directory and in
the internal directory and resolves to the working-directory path, not to the
internal entry; `ghost.js` is present nowhere and resolves to `undefined`, not
to a working-directory path. -/
theorem C9_counterexample :
    demoEnv.parse "quiet.js" = ⟨"", "", "quiet.js", ".js"⟩ ∧
    demoEnv.existsSync "quiet.js" = true ∧
    demoEnv.readdirSync (demoEnv.resolve [demoEnv.dirname, "modules"]) =
      some ["_linux.js", "quiet.js"] ∧
    _getModuleFilePath demoEnv "quiet.js" = some (some "/cwd/quiet.js") ∧
    demoEnv.resolve [demoEnv.dirname, "modules", "quiet.js"] = "/app/modules/quiet.js" ∧
    demoEnv.parse "ghost.js" = ⟨"", "", "ghost.js", ".js"⟩ ∧
    demoEnv.existsSync "ghost.js" = false ∧
    demoEnv.resolve ["ghost.js"] = "/cwd/ghost.js" ∧
    _getModuleFilePath demoEnv "ghost.js" = some none := by
  decide

/-- C9 (amended): a name whose extension is none of `.js`, `.asar`, `.module`
gives `undefined`. A bare name with one of these extensions that exists
relative to the working directory resolves to its working-directory path;
otherwise it resolves to the internal module directory if listed there,
otherwise to the external module directory if listed there, and otherwise to
`undefined`. -/
theorem C9_module_file_resolution (env : Env) (moduleFile : String) :
    (¬ ((env.parse moduleFile).ext = ".js" ∨ (env.parse moduleFile).ext = ".asar" ∨
        (env.parse moduleFile).ext = ".module") →
      _getModuleFilePath env moduleFile = some none) ∧
    (((env.parse moduleFile).ext = ".js" ∨ (env.parse moduleFile).ext = ".asar" ∨
        (env.parse moduleFile).ext = ".module") →
      (env.parse moduleFile).root = "" → (env.parse moduleFile).dir = "" →
      (env.existsSync (env.parse moduleFile).base = true →
        _getModuleFilePath env moduleFile = some (some (env.resolve [moduleFile]))) ∧
      (env.existsSync (env.parse moduleFile).base = false →
        ∀ internal, env.readdirSync (env.resolve [env.dirname, "modules"]) = some internal →
          ((env.parse moduleFile).base ∈ internal →
            _getModuleFilePath env moduleFile =
              some (some (env.resolve [env.dirname, "modules", (env.parse moduleFile).base]))) ∧
          ((env.parse moduleFile).base ∉ internal →
            ∀ external,
              env.readdirSync (env.resolve [env.savePath, "_modules"]) = some external →
              ((env.parse moduleFile).base ∈ external →
                _getModuleFilePath env moduleFile =
                  some (some
                    (env.resolve [env.savePath, "_modules", (env.parse moduleFile).base]))) ∧
              ((env.parse moduleFile).base ∉ external →
                _getModuleFilePath env moduleFile = some none)))) := by
  constructor
  · intro hext
    simp only [not_or] at hext
    simp [_getModuleFilePath, isModuleExt, hext.1, hext.2.1, hext.2.2]
  · intro hext hroot hdir
    have hm : isModuleExt (env.parse moduleFile).ext = true := by
      simpa [isModuleExt, or_assoc] using hext
    refine ⟨?_, ?_⟩
    · intro hcwd
      simp [_getModuleFilePath, hm, hcwd]
    · intro hcwd internal hint
      refine ⟨?_, ?_⟩
      · intro hin
        simp [_getModuleFilePath, hm, hroot, hdir, hcwd, hint, hin]
      · intro hnin external hextl
        refine ⟨?_, ?_⟩
        · intro hin
          simp [_getModuleFilePath, hm, hroot, hdir, hcwd, hint, hnin, hextl, hin]
        · intro hne
          simp [_getModuleFilePath, hm, hroot, hdir, hcwd, hint, hnin, hextl, hne]

/-- C9 (amended) on the installation `demoEnv`: `notes.txt`, `quiet.js` (in the
working directory), `clash.js` (external only) and `ghost.js` (nowhere). -/
theorem C9_module_file_resolution_witness :
    _getModuleFilePath demoEnv "notes.txt" = some none ∧
    _getModuleFilePath demoEnv "quiet.js" = some (some (demoEnv.resolve ["quiet.js"])) ∧
    _getModuleFilePath demoEnv "clash.js" =
      some (some (demoEnv.resolve [demoEnv.savePath, "_modules", "clash.js"])) ∧
    _getModuleFilePath demoEnv "ghost.js" = some none :=
  ⟨(C9_module_file_resolution demoEnv "notes.txt").1 (by decide),
   ((C9_module_file_resolution demoEnv "quiet.js").2 (by decide) (by decide) (by decide)).1
     (by decide),
   ((((C9_module_file_resolution demoEnv "clash.js").2 (by decide) (by decide)
      (by decide)).2 (by decide) ["_linux.js", "quiet.js"] (by decide)).2 (by decide)
      ["clash.js"] (by decide)).1 (by decide),
   ((((C9_module_file_resolution demoEnv "ghost.js").2 (by decide) (by decide)
      (by decide)).2 (by decide) ["_linux.js", "quiet.js"] (by decide)).2 (by decide)
      ["clash.js"] (by decide)).2 (by decide)⟩

/-! ## `_getCssProp` -/

/-- The null result of `_getCssProp`: exactly when the raw value is empty or
nothing is left after trimming and removing the first quote. -/
theorem _getCssProp_eq_none_iff (raw : String) :
    _getCssProp raw = none ↔ raw = "" ∨ replaceQuote (trim raw.toList) = [] := by
  have hmk : ∀ l : List Char, String.mk l = "" ↔ l = [] := by
    intro l
    rw [String.ext_iff]
  by_cases h : raw = ""
  · simp [_getCssProp, rendererGetCssProp, h]
  · simp only [_getCssProp, rendererGetCssProp, h, if_false, false_or]
    by_cases h2 : String.mk (replaceQuote (trim raw.toList)) = ""
    · simp only [h2, if_true, true_iff]
      exact (hmk _).mp h2
    · simp only [h2, if_false]
      constructor
      · intro e
        cases e
      · intro e
        exact absurd ((hmk _).mpr e) h2

/-- A value with at most one quote character after trimming comes back free of
quote characters. -/
theorem replaceQuote_no_quote (l : List Char) (h : l.count dquote ≤ 1) :
    dquote ∉ replaceQuote l := by
  induction l with
  | nil => simp [replaceQuote]
  | cons c cs ih =>
    by_cases hc : c = dquote
    · subst hc
      simp only [List.count_cons_self] at h
      have h0 : cs.count dquote = 0 := by omega
      simpa [replaceQuote] using List.count_eq_zero.mp h0
    · have hcs : cs.count dquote ≤ 1 := by
        simpa [List.count_cons, hc] using h
      simp only [replaceQuote, hc, if_false, List.mem_cons, not_or]
      exact ⟨fun e => hc e.symm, ih hcs⟩

/-- C8, evaluated on the code: for the raw value `"true"` wrapped in two quote
characters, `_getCssProp` resolves with `true"`. Only the first quote is
removed, so the result still contains a quote character, which the claim
excludes. -/
theorem C8_second_quote_survives :
    _getCssProp quotedTrue = some (String.mk ['t', 'r', 'u', 'e', dquote]) ∧
    dquote ∈ (String.mk ['t', 'r', 'u', 'e', dquote]).toList := by
  decide

/-! ## `_updateVariables` -/

/-- A round-trip whose read fulfils dispatches `update` with the value
`_getCssProp` resolves to, and settles as that `update` does. -/
theorem roundTrip_of_fulfilled (host : Host) (moduleName prop raw : String)
    (h : host.read moduleName prop = Settled.fulfilled raw) :
    roundTrip host moduleName prop =
      ⟨moduleName, prop, some (_getCssProp raw),
        host.updateOk moduleName prop (_getCssProp raw)⟩ := by
  simp [roundTrip, h]

/-- A round-trip whose read rejects dispatches nothing and rejects. -/
theorem roundTrip_of_rejected (host : Host) (moduleName prop : String)
    (h : host.read moduleName prop = Settled.rejected) :
    roundTrip host moduleName prop = ⟨moduleName, prop, none, false⟩ := by
  simp [roundTrip, h]

/-- A round-trip fulfils exactly when the host fulfils its read and its update. -/
theorem roundTrip_ok_iff (host : Host) (moduleName prop : String) :
    (roundTrip host moduleName prop).ok = true ↔
      ∃ raw, host.read moduleName prop = Settled.fulfilled raw ∧
        host.updateOk moduleName prop (_getCssProp raw) = true := by
  cases hr : host.read moduleName prop with
  | rejected => simp [roundTrip, hr]
  | fulfilled raw => simp [roundTrip, hr]

/-- C6 as stated fails: with the Linux module live (three observed
properties), the host rejecting the read of `--glasscord-gnome-sigma` and
fulfilling the two other round-trips, "Updated!" is not logged. -/
theorem C6_counterexample :
    observed linuxLoaded.modules =
      [("Linux", "--glasscord-linux-blur"), ("Linux", "--glasscord-gnome-sigma"),
        ("Linux", "--glasscord-blur-corner-radius")] ∧
    oneRejects.read "Linux" "--glasscord-linux-blur" = Settled.fulfilled "true" ∧
    oneRejects.updateOk "Linux" "--glasscord-linux-blur" (_getCssProp "true") = true ∧
    oneRejects.read "Linux" "--glasscord-gnome-sigma" = Settled.rejected ∧
    oneRejects.read "Linux" "--glasscord-blur-corner-radius" = Settled.fulfilled "8" ∧
    oneRejects.updateOk "Linux" "--glasscord-blur-corner-radius" (_getCssProp "8") = true ∧
    (_updateVariables linuxLoaded oneRejects).promises =
      [⟨"Linux", "--glasscord-linux-blur", some (some "true"), true⟩,
        ⟨"Linux", "--glasscord-gnome-sigma", none, false⟩,
        ⟨"Linux", "--glasscord-blur-corner-radius", some (some "8"), true⟩] ∧
    (_updateVariables linuxLoaded oneRejects).loggedUpdated = false := by
  decide

/-- C6 (amended): a refresh pushes one promise per observed property, in
order, and each is settled by the host alone: when the host fulfils the read
of a property, `update` is dispatched for it with the value read, whatever
happens to the other round-trips, and the promise settles as that `update`
does; when the read rejects, nothing is dispatched and the promise rejects.
"Updated!" is logged if and only if the host fulfils every round-trip. Hence
when the host fails exactly one of the P round-trips (`bad`) and fulfils the
others (`pre`, `post`), the other P-1 updates are dispatched and fulfil, and
"Updated!" is not logged. -/
theorem C6_refresh_fan_out (self : Main) (host : Host) :
    List.Forall₂
      (fun (q : String × String) (rt : RoundTrip) =>
        rt.moduleName = q.1 ∧ rt.prop = q.2 ∧
        (∀ raw, host.read q.1 q.2 = Settled.fulfilled raw →
          rt.dispatched = some (_getCssProp raw) ∧
          rt.ok = host.updateOk q.1 q.2 (_getCssProp raw)) ∧
        (host.read q.1 q.2 = Settled.rejected → rt.dispatched = none ∧ rt.ok = false))
      (observed self.modules) (_updateVariables self host).promises ∧
    ((_updateVariables self host).loggedUpdated = true ↔
      ∀ q ∈ observed self.modules,
        ∃ raw, host.read q.1 q.2 = Settled.fulfilled raw ∧
          host.updateOk q.1 q.2 (_getCssProp raw) = true) ∧
    (∀ (pre : List (String × String)) (bad : String × String) (post : List (String × String)),
      observed self.modules = pre ++ bad :: post →
      (¬ ∃ raw, host.read bad.1 bad.2 = Settled.fulfilled raw ∧
          host.updateOk bad.1 bad.2 (_getCssProp raw) = true) →
      (∀ q ∈ pre ++ post,
        ∃ raw, host.read q.1 q.2 = Settled.fulfilled raw ∧
          host.updateOk q.1 q.2 (_getCssProp raw) = true) →
      (∀ q ∈ pre ++ post,
        ∃ raw, host.read q.1 q.2 = Settled.fulfilled raw ∧
          (⟨q.1, q.2, some (_getCssProp raw), true⟩ : RoundTrip) ∈
            (_updateVariables self host).promises) ∧
      ((_updateVariables self host).promises.filter
          (fun p => p.ok && p.dispatched.isSome)).length =
        (observed self.modules).length - 1 ∧
      (_updateVariables self host).loggedUpdated = false) := by
  have hlog : (_updateVariables self host).loggedUpdated = true ↔
      ∀ q ∈ observed self.modules,
        ∃ raw, host.read q.1 q.2 = Settled.fulfilled raw ∧
          host.updateOk q.1 q.2 (_getCssProp raw) = true := by
    simp only [_updateVariables, promiseAll, List.all_eq_true, List.mem_map,
      forall_exists_index, and_imp]
    constructor
    · intro h q hq
      exact (roundTrip_ok_iff host q.1 q.2).mp (h _ q hq rfl)
    · intro h rt q hq hrt
      subst hrt
      exact (roundTrip_ok_iff host q.1 q.2).mpr (h q hq)
  refine ⟨?_, hlog, ?_⟩
  · simp only [_updateVariables]
    rw [List.forall₂_map_right_iff, List.forall₂_same]
    intro q _
    refine ⟨?_, ?_, ?_, ?_⟩
    · cases hr : host.read q.1 q.2 <;> simp [roundTrip, hr]
    · cases hr : host.read q.1 q.2 <;> simp [roundTrip, hr]
    · intro raw hr
      simp [roundTrip_of_fulfilled host q.1 q.2 raw hr]
    · intro hr
      simp [roundTrip_of_rejected host q.1 q.2 hr]
  · intro pre bad post hobs hbad hrest
    have hgood : ∀ q ∈ pre ++ post,
        ((roundTrip host q.1 q.2).ok && (roundTrip host q.1 q.2).dispatched.isSome) = true := by
      intro q hq
      obtain ⟨raw, hr, hu⟩ := hrest q hq
      simp [roundTrip_of_fulfilled host q.1 q.2 raw hr, hu]
    have hbadok : (roundTrip host bad.1 bad.2).ok = false := by
      cases hok : (roundTrip host bad.1 bad.2).ok
      · rfl
      · exact absurd ((roundTrip_ok_iff host bad.1 bad.2).mp hok) hbad
    refine ⟨?_, ?_, ?_⟩
    · intro q hq
      obtain ⟨raw, hr, hu⟩ := hrest q hq
      refine ⟨raw, hr, ?_⟩
      simp only [_updateVariables, List.mem_map]
      refine ⟨q, ?_, ?_⟩
      · rw [hobs]
        simp only [List.mem_append, List.mem_cons] at hq ⊢
        tauto
      · rw [roundTrip_of_fulfilled host q.1 q.2 raw hr, hu]
    · have hpre : ∀ q ∈ pre, ((roundTrip host q.1 q.2).ok &&
          (roundTrip host q.1 q.2).dispatched.isSome) = true :=
        fun q hq => hgood q (List.mem_append_left _ hq)
      have hpost : ∀ q ∈ post, ((roundTrip host q.1 q.2).ok &&
          (roundTrip host q.1 q.2).dispatched.isSome) = true :=
        fun q hq => hgood q (List.mem_append_right _ hq)
      have hfpre : ((pre.map (fun p => roundTrip host p.1 p.2)).filter
          (fun p => p.ok && p.dispatched.isSome)).length = pre.length := by
        rw [List.filter_eq_self.mpr]
        · simp
        · intro rt hrt
          obtain ⟨q, hq, rfl⟩ := List.mem_map.mp hrt
          exact hpre q hq
      have hfpost : ((post.map (fun p => roundTrip host p.1 p.2)).filter
          (fun p => p.ok && p.dispatched.isSome)).length = post.length := by
        rw [List.filter_eq_self.mpr]
        · simp
        · intro rt hrt
          obtain ⟨q, hq, rfl⟩ := List.mem_map.mp hrt
          exact hpost q hq
      have hsplit : (_updateVariables self host).promises.filter
            (fun p => p.ok && p.dispatched.isSome) =
          (pre.map (fun p => roundTrip host p.1 p.2)).filter
              (fun p => p.ok && p.dispatched.isSome) ++
            (post.map (fun p => roundTrip host p.1 p.2)).filter
              (fun p => p.ok && p.dispatched.isSome) := by
        simp only [_updateVariables, hobs, List.map_append, List.map_cons, List.filter_append,
          List.filter_cons, hbadok, Bool.false_and]
        simp
      rw [hsplit, List.length_append, hfpre, hfpost, hobs]
      simp
    · cases hl : (_updateVariables self host).loggedUpdated
      · rfl
      · exfalso
        exact hbad (hlog.mp hl bad (by rw [hobs]; simp))

/-- C6 (amended) on the refresh of `linuxLoaded` in which the host rejects the
read of `--glasscord-gnome-sigma` only: both other updates are dispatched, two
promises fulfil and "Updated!" is not logged. -/
theorem C6_refresh_fan_out_witness :
    (∀ q ∈ [("Linux", "--glasscord-linux-blur")] ++ [("Linux", "--glasscord-blur-corner-radius")],
      ∃ raw, oneRejects.read q.1 q.2 = Settled.fulfilled raw ∧
        (⟨q.1, q.2, some (_getCssProp raw), true⟩ : RoundTrip) ∈
          (_updateVariables linuxLoaded oneRejects).promises) ∧
    ((_updateVariables linuxLoaded oneRejects).promises.filter
        (fun p => p.ok && p.dispatched.isSome)).length =
      (observed linuxLoaded.modules).length - 1 ∧
    (_updateVariables linuxLoaded oneRejects).loggedUpdated = false :=
  (C6_refresh_fan_out linuxLoaded oneRejects).2.2
    [("Linux", "--glasscord-linux-blur")] ("Linux", "--glasscord-gnome-sigma")
    [("Linux", "--glasscord-blur-corner-radius")] (by decide)
    (by
      rintro ⟨raw, hr, _⟩
      simp [oneRejects] at hr)
    (by
      intro q hq
      simp only [List.singleton_append, List.mem_cons, List.mem_singleton, List.not_mem_nil,
        or_false] at hq
      rcases hq with rfl | rfl
      · exact ⟨"true", by decide, by decide⟩
      · exact ⟨"8", by decide, by decide⟩)

/-! ## `Linux.update` -/

/-- The Number `parseInt` returns is a double: 2^53 + 1 rounds to 2^53, a tie
goes to the even significand, `-0` keeps its sign, and a value of 401 digits
is `Infinity`. -/
theorem parseInt_rounds_to_double :
    parseInt (some "9007199254740991") = JsNum.finite false 9007199254740991 ∧
    parseInt (some "9007199254740993") = JsNum.finite false 9007199254740992 ∧
    parseInt (some "-9007199254740995") = JsNum.finite true 9007199254740996 ∧
    parseInt (some "0x20000000000001") = JsNum.finite false 9007199254740992 ∧
    parseInt (some "-0") = JsNum.finite true 0 ∧
    parseInt (some hugeDigits) = JsNum.infinity false := by
  refine ⟨by decide, by decide, by decide, by decide, by decide, ?_⟩
  set_option maxRecDepth 100000 in
  set_option exponentiation.threshold 2000 in
  decide

/-- C7 as stated fails: with both fields defined, the value `"abc"` replaces
the sigma 5 by NaN, and a null value replaces the corner radius 3 by NaN. -/
theorem C7_counterexample :
    tunedWin.blurGnomeSigma = some (JsNum.finite false 5) ∧
    (Linux.update tunedWin "--glasscord-gnome-sigma" (some "abc")).blurGnomeSigma =
      some JsNum.nan ∧
    tunedWin.blurCornerRadius = some (JsNum.finite false 3) ∧
    (Linux.update tunedWin "--glasscord-blur-corner-radius" none).blurCornerRadius =
      some JsNum.nan := by
  decide

/-- C7 (amended): on each numeric property whose window field is defined,
`update` returns normally and stores the Number `parseInt(value)` in that
field, leaving the rest of the window as it was. So `"12"` stores the integer
12, and a value that does not parse as a number, such as `"abc"` or null,
stores NaN. -/
theorem C7_numeric_update (win : BrowserWindow) (value : Option String) :
    (win.blurGnomeSigma ≠ none →
      Linux.update win "--glasscord-gnome-sigma" value =
        { win with blurGnomeSigma := some (parseInt value) }) ∧
    (win.blurCornerRadius ≠ none →
      Linux.update win "--glasscord-blur-corner-radius" value =
        { win with blurCornerRadius := some (parseInt value) }) ∧
    parseInt (some "12") = JsNum.finite false 12 ∧
    parseInt (some "abc") = JsNum.nan ∧
    parseInt none = JsNum.nan := by
  refine ⟨?_, ?_, by decide, by decide, by decide⟩
  · intro h
    cases hs : win.blurGnomeSigma with
    | none => exact absurd hs h
    | some old => simp [Linux.update, hs]
  · intro h
    cases hs : win.blurCornerRadius with
    | none => exact absurd hs h
    | some old => simp [Linux.update, hs]

/-- C7 (amended) on `tunedWin`: `"12"` as sigma, null as corner radius. -/
theorem C7_numeric_update_witness :
    Linux.update tunedWin "--glasscord-gnome-sigma" (some "12") =
      { tunedWin with blurGnomeSigma := some (parseInt (some "12")) } ∧
    Linux.update tunedWin "--glasscord-blur-corner-radius" none =
      { tunedWin with blurCornerRadius := some (parseInt none) } :=
  ⟨(C7_numeric_update tunedWin (some "12")).1 (by decide),
   (C7_numeric_update tunedWin none).2.1 (by decide)⟩

theorem toLower_cases (c : Char) :
    c.toLower = c ∨ (65 ≤ c.toNat ∧ c.toNat ≤ 90 ∧ c.toLower = Char.ofNat (c.toNat + 32)) := by
  by_cases h : c.toNat ≥ 65 ∧ c.toNat ≤ 90
  · right
    refine ⟨h.1, h.2, ?_⟩
    simp only [Char.toLower]
    rw [if_pos h]
  · left
    simp only [Char.toLower]
    rw [if_neg h]

theorem char_eq_of_toNat (c : Char) (n : Nat) (h : c.toNat = n) : c = Char.ofNat n := by
  subst h
  exact (Char.ofNat_toNat c).symm

theorem toLower_eq_t (c : Char) : c.toLower = 't' ↔ (c = 't' ∨ c = 'T') := by
  constructor
  · intro h
    rcases toLower_cases c with h1 | ⟨h1, h2, h3⟩
    · left
      rw [← h1]
      exact h
    · right
      have hc := char_eq_of_toNat c c.toNat rfl
      generalize c.toNat = n at h1 h2 h3 hc
      subst hc
      interval_cases n <;> first | rfl | (exfalso; revert h; decide)
  · rintro (rfl | rfl) <;> decide

theorem toLower_eq_r (c : Char) : c.toLower = 'r' ↔ (c = 'r' ∨ c = 'R') := by
  constructor
  · intro h
    rcases toLower_cases c with h1 | ⟨h1, h2, h3⟩
    · left
      rw [← h1]
      exact h
    · right
      have hc := char_eq_of_toNat c c.toNat rfl
      generalize c.toNat = n at h1 h2 h3 hc
      subst hc
      interval_cases n <;> first | rfl | (exfalso; revert h; decide)
  · rintro (rfl | rfl) <;> decide

theorem toLower_eq_u (c : Char) : c.toLower = 'u' ↔ (c = 'u' ∨ c = 'U') := by
  constructor
  · intro h
    rcases toLower_cases c with h1 | ⟨h1, h2, h3⟩
    · left
      rw [← h1]
      exact h
    · right
      have hc := char_eq_of_toNat c c.toNat rfl
      generalize c.toNat = n at h1 h2 h3 hc
      subst hc
      interval_cases n <;> first | rfl | (exfalso; revert h; decide)
  · rintro (rfl | rfl) <;> decide

theorem toLower_eq_e (c : Char) : c.toLower = 'e' ↔ (c = 'e' ∨ c = 'E') := by
  constructor
  · intro h
    rcases toLower_cases c with h1 | ⟨h1, h2, h3⟩
    · left
      rw [← h1]
      exact h
    · right
      have hc := char_eq_of_toNat c c.toNat rfl
      generalize c.toNat = n at h1 h2 h3 hc
      subst hc
      interval_cases n <;> first | rfl | (exfalso; revert h; decide)
  · rintro (rfl | rfl) <;> decide

/-- The strings whose lower-casing is "true" are the sixteen spellings of the
word in upper and lower case. -/
theorem toLowerCase_eq_true_iff (s : String) :
    toLowerCase s = "true" ↔
      ∃ c1 c2 c3 c4 : Char, s = String.mk [c1, c2, c3, c4] ∧
        (c1 = 't' ∨ c1 = 'T') ∧ (c2 = 'r' ∨ c2 = 'R') ∧
        (c3 = 'u' ∨ c3 = 'U') ∧ (c4 = 'e' ∨ c4 = 'E') := by
  have hlit : ("true" : String) = String.mk ['t', 'r', 'u', 'e'] := by decide
  have key : ∀ l : List Char, l.map Char.toLower = ['t', 'r', 'u', 'e'] ↔
      ∃ c1 c2 c3 c4 : Char, l = [c1, c2, c3, c4] ∧
        (c1 = 't' ∨ c1 = 'T') ∧ (c2 = 'r' ∨ c2 = 'R') ∧
        (c3 = 'u' ∨ c3 = 'U') ∧ (c4 = 'e' ∨ c4 = 'E') := by
    intro l
    constructor
    · intro h
      rcases l with _ | ⟨a, _ | ⟨b, _ | ⟨c, _ | ⟨d, _ | ⟨e, t⟩⟩⟩⟩⟩
      · simp at h
      · simp at h
      · simp at h
      · simp at h
      · simp only [List.map_cons, List.map_nil, List.cons.injEq, and_true] at h
        exact ⟨a, b, c, d, rfl, (toLower_eq_t a).mp h.1, (toLower_eq_r b).mp h.2.1,
          (toLower_eq_u c).mp h.2.2.1, (toLower_eq_e d).mp h.2.2.2⟩
      · simp at h
    · rintro ⟨a, b, c, d, rfl, ha, hb, hc, hd⟩
      simp only [List.map_cons, List.map_nil, List.cons.injEq, and_true]
      exact ⟨(toLower_eq_t a).mpr ha, (toLower_eq_r b).mpr hb, (toLower_eq_u c).mpr hc,
        (toLower_eq_e d).mpr hd⟩
  rw [hlit]
  simp only [toLowerCase, String.ext_iff, String.toList]
  exact key s.data

/-- C10: on `--glasscord-linux-blur`, `update` calls `setBlur` once, with a
boolean that is true exactly when the value is a string spelling "true" in any
mix of upper and lower case; every other string and the null value give
false. -/
theorem C10_blur_toggle (win : BrowserWindow) (value : Option String) :
    ∃ b : Bool,
      Linux.update win "--glasscord-linux-blur" value =
        { win with setBlurCalls := win.setBlurCalls ++ [b] } ∧
      (b = true ↔
        ∃ c1 c2 c3 c4 : Char, value = some (String.mk [c1, c2, c3, c4]) ∧
          (c1 = 't' ∨ c1 = 'T') ∧ (c2 = 'r' ∨ c2 = 'R') ∧
          (c3 = 'u' ∨ c3 = 'U') ∧ (c4 = 'e' ∨ c4 = 'E')) := by
  cases value with
  | none =>
    refine ⟨false, by simp [Linux.update], ?_⟩
    simp
  | some s =>
    refine ⟨decide (toLowerCase s = "true"), by simp [Linux.update], ?_⟩
    rw [decide_eq_true_iff, toLowerCase_eq_true_iff]
    constructor
    · rintro ⟨a, b, c, d, rfl, h⟩
      exact ⟨a, b, c, d, rfl, h⟩
    · rintro ⟨a, b, c, d, h, h2⟩
      exact ⟨a, b, c, d, Option.some.inj h, h2⟩

end Glasscord
